import Mathlib

/-!
Shallow embedding of `src/craft_platforms/_distro.py` (craft-platforms).

The module defines a `DistroBase` dataclass with equality and ordering
comparisons against three operand shapes (another `DistroBase`, a
`BaseName`-protocol object exposing `name`/`version`, or a plain tuple),
a `from_str` parser, a version-tuple conversion helper, and the
`is_ubuntu_like` predicate.

Python-level behaviour is modelled explicitly:
- `int(s)` accepts surrounding whitespace, an optional sign, and ASCII
  digits separated by single underscores; everything else raises
  `ValueError` (here: returns `none`).
- `s.split(".")` keeps empty chunks; `s.split()` (no argument) splits on
  whitespace runs and discards empty chunks.
- tuple comparison walks to the first non-equal position and compares
  there; comparing an `int` with a `str` at that position raises
  `TypeError`; a strict prefix compares by length.
- indexing a too-short tuple raises `IndexError`, and Python's `and`
  short-circuits, so `other[1]` in `__eq__` is only read when the first
  components compare equal.
Fallible operations return `Except PyError`.
-/

/-- Python exception kinds the embedded code can raise. -/
inductive PyError where
  | valueError : String → PyError
  | typeError : PyError
  | indexError : PyError
deriving DecidableEq, Repr

/-- Decidable equality of `Except` results, so concrete runs can be
checked by `decide`. -/
def Except.decEq {ε α : Type} [DecidableEq ε] [DecidableEq α] :
    (a b : Except ε α) → Decidable (a = b)
  | .error a, .error b =>
    if h : a = b then isTrue (by rw [h]) else isFalse (by simp [h])
  | .error _, .ok _ => isFalse (by simp)
  | .ok _, .error _ => isFalse (by simp)
  | .ok a, .ok b =>
    if h : a = b then isTrue (by rw [h]) else isFalse (by simp [h])

instance {ε α : Type} [DecidableEq ε] [DecidableEq α] : DecidableEq (Except ε α) :=
  Except.decEq

/-- ASCII whitespace characters stripped by Python's `int()` conversion. -/
def isPySpace (c : Char) : Bool :=
  c = ' ' || c = '\t' || c = '\n' || c = '\r' || c = '\x0b' || c = '\x0c'

/-- Value of an ASCII decimal digit, `none` otherwise. -/
def digitVal (c : Char) : Option Nat :=
  if c.isDigit then some (c.toNat - 48) else none

/-- Remaining characters of the digit part of a Python integer string:
digits, with single underscores allowed between digits. -/
def parseDigitsRest : Nat → List Char → Option Nat
  | acc, [] => some acc
  | _, ['_'] => none
  | acc, '_' :: c :: cs =>
    match digitVal c with
    | some d => parseDigitsRest (acc * 10 + d) cs
    | none => none
  | acc, c :: cs =>
    match digitVal c with
    | some d => parseDigitsRest (acc * 10 + d) cs
    | none => none

/-- The digit part of a Python integer string: at least one digit. -/
def parseDigitPart : List Char → Option Nat
  | [] => none
  | c :: cs =>
    match digitVal c with
    | some d => parseDigitsRest d cs
    | none => none

/-- Model of Python's `int(s)` for ASCII input: strip whitespace, optional
sign, then the digit part. `none` models `ValueError`. -/
def pyInt (s : String) : Option Int :=
  let stripped := ((s.data.dropWhile isPySpace).reverse.dropWhile isPySpace).reverse
  match stripped with
  | '-' :: rest => (parseDigitPart rest).map (fun n => -(n : Int))
  | '+' :: rest => (parseDigitPart rest).map (fun n => (n : Int))
  | rest => (parseDigitPart rest).map (fun n => (n : Int))

/-- Python's `s.split(".")` on the character list: split at every dot,
keeping empty chunks; the result is never empty. -/
def splitOnDot : List Char → List (List Char)
  | [] => [[]]
  | c :: cs =>
    if c = '.' then [] :: splitOnDot cs
    else
      match splitOnDot cs with
      | [] => [[c]]
      | chunk :: rest => (c :: chunk) :: rest

/-- A component of a version tuple: Python stores either the parsed integer
or the original string token. -/
inductive VersionPart where
  | num : Int → VersionPart
  | str : String → VersionPart
deriving DecidableEq, Repr

/-- Coerce one token: `int(part)` if that succeeds, else the string. -/
def coercePart (cs : List Char) : VersionPart :=
  match pyInt (String.mk cs) with
  | some n => .num n
  | none => .str (String.mk cs)

/-- Embedding of `_get_version_tuple`: split on `"."` and coerce each
token to an integer where possible. -/
def _get_version_tuple (version_str : String) : List VersionPart :=
  (splitOnDot version_str.data).map coercePart

/-- Python equality of two version-tuple components (`int == str` is
`False`, never an error). -/
def partEq : VersionPart → VersionPart → Bool
  | .num a, .num b => a == b
  | .str a, .str b => a == b
  | _, _ => false

/-- Python comparison of two version-tuple components already known to be
non-equal: `int`/`int` and `str`/`str` compare normally, `int`/`str`
raises `TypeError`. -/
def partCompare : VersionPart → VersionPart → Except PyError Ordering
  | .num a, .num b => .ok (if a < b then .lt else if a = b then .eq else .gt)
  | .str a, .str b => .ok (if a < b then .lt else if a = b then .eq else .gt)
  | _, _ => .error .typeError

/-- Python's lexicographic tuple comparison: find the first non-equal
position and compare there; a strict prefix compares by length. -/
def tupleCompare : List VersionPart → List VersionPart → Except PyError Ordering
  | [], [] => .ok .eq
  | [], _ :: _ => .ok .lt
  | _ :: _, [] => .ok .gt
  | x :: xs, y :: ys => if partEq x y then tupleCompare xs ys else partCompare x y

/-- Embedding of the `DistroBase` dataclass. -/
structure DistroBase where
  distribution : String
  series : String
deriving DecidableEq, Repr

/-- The operand shapes accepted by the ordering operators: a `DistroBase`,
a `BaseName`-protocol object (its `name` and `version` fields), or a
tuple (modelled as a list of strings, since Python tuples have no fixed
length). -/
inductive Operand where
  | distroBase : DistroBase → Operand
  | baseName : (name version : String) → Operand
  | pair : List String → Operand
deriving DecidableEq, Repr

/-- The distribution identifier of an operand, exactly as the dispatch
chain of `_ensure_bases_comparable` reads it; `other[0]` on an empty
tuple raises `IndexError`. -/
def Operand.distroId : Operand → Except PyError String
  | .distroBase d => .ok d.distribution
  | .baseName n _ => .ok n
  | .pair p =>
    match p[0]? with
    | some x => .ok x
    | none => .error .indexError

/-- Embedding of `DistroBase._ensure_bases_comparable`: extract the other
operand's distribution and raise `ValueError` when it differs. -/
def DistroBase._ensure_bases_comparable (self : DistroBase) (other : Operand) :
    Except PyError Unit :=
  match other.distroId with
  | .error e => .error e
  | .ok other_distro =>
    if self.distribution ≠ other_distro then
      .error (.valueError ("Different distributions (" ++ self.distribution ++
        " and " ++ other_distro ++ ") do not have comparable versions."))
    else .ok ()

/-- Embedding of `_get_version`: the version string of an operand;
`base[1]` on a too-short tuple raises `IndexError`. -/
def _get_version : Operand → Except PyError String
  | .distroBase b => .ok b.series
  | .baseName _ v => .ok v
  | .pair p =>
    match p[1]? with
    | some x => .ok x
    | none => .error .indexError

/-- Embedding of `DistroBase.__lt__`. -/
def DistroBase.lt (self : DistroBase) (other : Operand) : Except PyError Bool :=
  match self._ensure_bases_comparable other with
  | .error e => .error e
  | .ok _ =>
    match _get_version other with
    | .error e => .error e
    | .ok ver =>
      (tupleCompare (_get_version_tuple self.series) (_get_version_tuple ver)).map
        (fun o => o == Ordering.lt)

/-- Embedding of `DistroBase.__le__`. -/
def DistroBase.le (self : DistroBase) (other : Operand) : Except PyError Bool :=
  match self._ensure_bases_comparable other with
  | .error e => .error e
  | .ok _ =>
    match _get_version other with
    | .error e => .error e
    | .ok ver =>
      (tupleCompare (_get_version_tuple self.series) (_get_version_tuple ver)).map
        (fun o => o == Ordering.lt || o == Ordering.eq)

/-- Embedding of `DistroBase.__gt__`. -/
def DistroBase.gt (self : DistroBase) (other : Operand) : Except PyError Bool :=
  match self._ensure_bases_comparable other with
  | .error e => .error e
  | .ok _ =>
    match _get_version other with
    | .error e => .error e
    | .ok ver =>
      (tupleCompare (_get_version_tuple self.series) (_get_version_tuple ver)).map
        (fun o => o == Ordering.gt)

/-- Embedding of `DistroBase.__ge__`. -/
def DistroBase.ge (self : DistroBase) (other : Operand) : Except PyError Bool :=
  match self._ensure_bases_comparable other with
  | .error e => .error e
  | .ok _ =>
    match _get_version other with
    | .error e => .error e
    | .ok ver =>
      (tupleCompare (_get_version_tuple self.series) (_get_version_tuple ver)).map
        (fun o => o == Ordering.gt || o == Ordering.eq)

/-- Result of `__eq__`: a boolean, or the `NotImplemented` sentinel for
unrecognized shapes (the host then falls back to identity comparison). -/
inductive EqResult where
  | bool : Bool → EqResult
  | notImplemented : EqResult
deriving DecidableEq, Repr

/-- A Python object on the right of `==`: one of the recognized shapes, or
an unrelated object. -/
inductive EqOperand where
  | distroBase : DistroBase → EqOperand
  | baseName : (name version : String) → EqOperand
  | pair : List String → EqOperand
  | unrelated : EqOperand
deriving DecidableEq, Repr

/-- Embedding of `DistroBase.__eq__`, including Python's short-circuit of
`and`: with a tuple operand, `other[1]` is read only when
`self.distribution == other[0]`, and `other[0]` on an empty tuple raises
`IndexError`. -/
def DistroBase.eq (self : DistroBase) (other : EqOperand) : Except PyError EqResult :=
  match other with
  | .distroBase o =>
    .ok (.bool (self.distribution == o.distribution && self.series == o.series))
  | .baseName n v => .ok (.bool (self.distribution == n && self.series == v))
  | .pair p =>
    match p[0]? with
    | none => .error .indexError
    | some x =>
      if self.distribution == x then
        match p[1]? with
        | none => .error .indexError
        | some y => .ok (.bool (self.series == y))
      else .ok (.bool false)
  | .unrelated => .ok .notImplemented

/-- Characters before the first `'@'`. -/
def beforeAt : List Char → List Char
  | [] => []
  | c :: cs => if c = '@' then [] else c :: beforeAt cs

/-- Characters after the first `'@'` (empty when none occurs, matching the
third component of Python's `partition`). -/
def afterAt : List Char → List Char
  | [] => []
  | c :: cs => if c = '@' then cs else afterAt cs

/-- Embedding of `DistroBase.from_str`: require exactly one `'@'`, then
partition. The error message embeds the input as Python's `repr` renders
a string without quotes or escapes in it. -/
def DistroBase.from_str (base_str : String) : Except PyError DistroBase :=
  if base_str.data.count '@' ≠ 1 then
    .error (.valueError ("Invalid base string '" ++ base_str ++
      "'. Format should be '<distribution>@<series>'"))
  else
    .ok ⟨String.mk (beforeAt base_str.data), String.mk (afterAt base_str.data)⟩

/-- The fields of a `distro.LinuxDistribution` that `is_ubuntu_like`
reads: `id()` and `like()`. -/
structure LinuxDistribution where
  id : String
  like : String
deriving DecidableEq, Repr

/-- Python's no-argument `s.split()`: split on whitespace runs, discarding
empty chunks; the accumulator holds the current chunk reversed. -/
def splitWsAux : List Char → List Char → List String
  | acc, [] => if acc.isEmpty then [] else [String.mk acc.reverse]
  | acc, c :: cs =>
    if isPySpace c then
      if acc.isEmpty then splitWsAux [] cs
      else String.mk acc.reverse :: splitWsAux [] cs
    else splitWsAux (c :: acc) cs

/-- Python's `s.split()` on a string. -/
def pySplitWs (s : String) : List String := splitWsAux [] s.data

/-- Embedding of `is_ubuntu_like`. The `distribution is None` default
reads the host system and is external to this module; the descriptor is
passed explicitly. -/
def is_ubuntu_like (distribution : LinuxDistribution) : Bool :=
  if distribution.id == "ubuntu" then true
  else
    let distros_like := pySplitWs distribution.like
    if distros_like.contains "ubuntu" then true
    else false

/-! ## Helper lemmas -/

/-- When the operand's distribution matches, the compatibility check
passes. -/
theorem ensure_ok (b : DistroBase) (o : Operand)
    (hid : o.distroId = .ok b.distribution) :
    b._ensure_bases_comparable o = .ok () := by
  simp [DistroBase._ensure_bases_comparable, hid]

/-- Evaluation of the four ordering operators once the compatibility
check passes and the tuple comparison yields an ordering. -/
theorem ordering_ops_eval (b : DistroBase) (o : Operand) (v : String) (c : Ordering)
    (hid : o.distroId = .ok b.distribution)
    (hv : _get_version o = .ok v)
    (hc : tupleCompare (_get_version_tuple b.series) (_get_version_tuple v) = .ok c) :
    b.lt o = .ok (c == .lt) ∧
    b.le o = .ok (c == .lt || c == .eq) ∧
    b.gt o = .ok (c == .gt) ∧
    b.ge o = .ok (c == .gt || c == .eq) := by
  have hens := ensure_ok b o hid
  refine ⟨?_, ?_, ?_, ?_⟩ <;>
    simp [DistroBase.lt, DistroBase.le, DistroBase.gt, DistroBase.ge, hens, hv, hc,
      Except.map]

/-! ## Claim theorems -/

/-- C2: the version-tuple conversion splits on `'.'`, replaces each token
that parses as a Python integer with that integer, keeps every other
token verbatim, drops no token and preserves order; concretely
`"7" ↦ (7,)`, `"20.04" ↦ (20, 4)`, `"10-buster" ↦ ("10-buster",)` and
`"" ↦ ("",)`. -/
theorem C2_version_tuple_conversion (s : String) :
    (_get_version_tuple s).length = (splitOnDot s.data).length ∧
    (∀ i : Nat, (_get_version_tuple s)[i]? =
      ((splitOnDot s.data)[i]?).map coercePart) ∧
    (∀ cs : List Char, coercePart cs =
      match pyInt (String.mk cs) with
      | some n => VersionPart.num n
      | none => VersionPart.str (String.mk cs)) ∧
    _get_version_tuple "7" = [.num 7] ∧
    _get_version_tuple "20.04" = [.num 20, .num 4] ∧
    _get_version_tuple "10-buster" = [.str "10-buster"] ∧
    _get_version_tuple "" = [.str ""] := by
  refine ⟨?_, ?_, fun cs => rfl, by decide, by decide, by decide, by decide⟩
  · simp [_get_version_tuple]
  · intro i
    simp [_get_version_tuple]

/-- C5: equality is reflexive; against another DistroBase it compares
both fields; against a BaseName it compares distribution with name and
series with version; against a pair it compares the two components; any
other shape yields the NotImplemented sentinel, resolved by the host's
symmetric fallback. -/
theorem C5_equality_shapes (b o : DistroBase) (n v x y : String) :
    b.eq (.distroBase b) = .ok (.bool true) ∧
    b.eq (.distroBase o) =
      .ok (.bool (b.distribution == o.distribution && b.series == o.series)) ∧
    b.eq (.baseName n v) = .ok (.bool (b.distribution == n && b.series == v)) ∧
    b.eq (.pair [x, y]) = .ok (.bool (b.distribution == x && b.series == y)) ∧
    b.eq .unrelated = .ok .notImplemented := by
  refine ⟨by simp [DistroBase.eq], rfl, rfl, ?_, rfl⟩
  cases h : (b.distribution == x) <;> simp [DistroBase.eq, h]

/-- C9: equality against a tuple inspects only its first two elements:
whenever they match the two fields, the result is true even with extra
elements present. -/
theorem C9_tuple_equality_first_two (b : DistroBase) (t : List String)
    (h0 : t[0]? = some b.distribution) (h1 : t[1]? = some b.series) :
    b.eq (.pair t) = .ok (.bool true) := by
  simp [DistroBase.eq, h0, h1]

/-- C9 witness: a three-element tuple whose first two components match. -/
theorem C9_tuple_equality_first_two_witness :
    (DistroBase.mk "ubuntu" "24.04").eq (.pair ["ubuntu", "24.04", "extra"]) =
      .ok (.bool true) :=
  C9_tuple_equality_first_two ⟨"ubuntu", "24.04"⟩ ["ubuntu", "24.04", "extra"] rfl rfl

/-- C10: the series "20.04" and "20.4" coerce to the same version tuple,
so for any distribution both bases are ≤ each other while equality is
false: ≤ is not antisymmetric with respect to equality. -/
theorem C10_le_not_antisymmetric (d : String) :
    (DistroBase.mk d "20.04").le (.distroBase ⟨d, "20.4"⟩) = .ok true ∧
    (DistroBase.mk d "20.4").le (.distroBase ⟨d, "20.04"⟩) = .ok true ∧
    (DistroBase.mk d "20.04").eq (.distroBase ⟨d, "20.4"⟩) = .ok (.bool false) := by
  have h1 := ordering_ops_eval ⟨d, "20.04"⟩ (.distroBase ⟨d, "20.4"⟩) "20.4"
    Ordering.eq rfl rfl rfl
  have h2 := ordering_ops_eval ⟨d, "20.4"⟩ (.distroBase ⟨d, "20.04"⟩) "20.04"
    Ordering.eq rfl rfl rfl
  refine ⟨h1.2.1, h2.2.1, ?_⟩
  simp [DistroBase.eq]

/-- C7: `is_ubuntu_like` holds iff the descriptor's id is exactly
"ubuntu" or "ubuntu" occurs as a whitespace-separated token of its like
field; with the four example descriptors of the spec. -/
theorem C7_is_ubuntu_like (d : LinuxDistribution) (l : String) :
    (is_ubuntu_like d = true ↔
      d.id = "ubuntu" ∨ "ubuntu" ∈ pySplitWs d.like) ∧
    is_ubuntu_like ⟨"centos", "rhel fedora"⟩ = false ∧
    is_ubuntu_like ⟨"ubuntu", l⟩ = true ∧
    is_ubuntu_like ⟨"linuxmint", "ubuntu debian"⟩ = true ∧
    is_ubuntu_like ⟨"debian", ""⟩ = false := by
  refine ⟨?_, by decide, rfl, by decide, by decide⟩
  cases hid : (d.id == "ubuntu") with
  | true =>
    simp only [is_ubuntu_like, hid, if_true]
    rw [beq_iff_eq] at hid
    simp [hid]
  | false =>
    cases hmem : (pySplitWs d.like).contains "ubuntu" with
    | true =>
      simp only [is_ubuntu_like, hid, Bool.false_eq_true, if_false, hmem, if_true]
      rw [List.contains, List.elem_iff] at hmem
      simp [hmem]
    | false =>
      simp only [is_ubuntu_like, hid, Bool.false_eq_true, if_false, hmem]
      have hmem' : "ubuntu" ∉ pySplitWs d.like := by
        intro h
        rw [List.contains, List.elem_iff.mpr h] at hmem
        cases hmem
      have hid' : ¬ d.id = "ubuntu" := by
        intro h
        rw [h] at hid
        simp at hid
      simp [hid', hmem']

/-- `beforeAt` returns exactly the prefix before the first `'@'`. -/
theorem beforeAt_append (d r : List Char) (hd : '@' ∉ d) :
    beforeAt (d ++ '@' :: r) = d := by
  induction d with
  | nil => simp [beforeAt]
  | cons c cs ih =>
    rw [List.mem_cons] at hd
    push_neg at hd
    have hc : ¬ c = '@' := fun h => hd.1 h.symm
    simp [beforeAt, hc, ih hd.2]

/-- `afterAt` returns exactly the suffix after the first `'@'`. -/
theorem afterAt_append (d r : List Char) (hd : '@' ∉ d) :
    afterAt (d ++ '@' :: r) = r := by
  induction d with
  | nil => simp [afterAt]
  | cons c cs ih =>
    rw [List.mem_cons] at hd
    push_neg at hd
    have hc : ¬ c = '@' := fun h => hd.1 h.symm
    simp [afterAt, hc, ih hd.2]

/-- A string assembled from two `'@'`-free halves around one `'@'` has
`'@'`-count one. -/
theorem count_at_one (d r : List Char) (hd : '@' ∉ d) (hr : '@' ∉ r) :
    (d ++ '@' :: r).count '@' = 1 := by
  rw [List.count_append, List.count_cons]
  rw [List.count_eq_zero.mpr hd, List.count_eq_zero.mpr hr]
  simp

/-- C4: `from_str` succeeds exactly when the input holds one `'@'`,
splitting verbatim around it with no trimming or case folding; any other
`'@'`-count raises the malformed-base ValueError that names the expected
shape and echoes the input. -/
theorem C4_from_str_parse :
    (∀ d r : String, '@' ∉ d.data → '@' ∉ r.data →
      DistroBase.from_str (d ++ "@" ++ r) = .ok ⟨d, r⟩) ∧
    (∀ s : String, s.data.count '@' ≠ 1 →
      DistroBase.from_str s = .error (.valueError ("Invalid base string '" ++ s ++
        "'. Format should be '<distribution>@<series>'"))) ∧
    (∀ s : String, (∃ b, DistroBase.from_str s = .ok b) ↔ s.data.count '@' = 1) ∧
    DistroBase.from_str "ubuntu@24.04" = .ok ⟨"ubuntu", "24.04"⟩ ∧
    DistroBase.from_str "bad-string" = .error (.valueError
      "Invalid base string 'bad-string'. Format should be '<distribution>@<series>'") ∧
    DistroBase.from_str "a@b@c" = .error (.valueError
      "Invalid base string 'a@b@c'. Format should be '<distribution>@<series>'") := by
  have hsplit : ∀ d r : String, (d ++ "@" ++ r).data = d.data ++ '@' :: r.data := by
    intro d r
    rw [String.data_append, String.data_append]
    show d.data ++ ['@'] ++ r.data = d.data ++ '@' :: r.data
    simp
  refine ⟨?_, ?_, ?_, by decide, by decide, by decide⟩
  · intro d r hd hr
    rw [DistroBase.from_str, hsplit d r, count_at_one d.data r.data hd hr]
    rw [beforeAt_append d.data r.data hd, afterAt_append d.data r.data hd]
    rfl
  · intro s hcnt
    rw [DistroBase.from_str, if_pos hcnt]
  · intro s
    constructor
    · rintro ⟨b, hb⟩
      by_contra hcnt
      rw [DistroBase.from_str, if_pos hcnt] at hb
      cases hb
    · intro h
      refine ⟨⟨String.mk (beforeAt s.data), String.mk (afterAt s.data)⟩, ?_⟩
      rw [DistroBase.from_str]
      simp [h]

/-- C4 witness: the round-trip at a concrete `'@'`-free pair. -/
theorem C4_from_str_parse_witness :
    DistroBase.from_str ("ubuntu" ++ "@" ++ "24.04") = .ok ⟨"ubuntu", "24.04"⟩ :=
  C4_from_str_parse.1 "ubuntu" "24.04" (by decide) (by decide)

/-- C1: whenever the operands' distribution identifiers differ, each of
the four ordering operators raises the incompatible-distributions
ValueError, whose message contains both identifiers; swapping the roles
of `b` and the operand base covers the opposite direction (for the
non-DistroBase shapes Python's reflected dispatch lands back in the
mirrored operator of the DistroBase side, covered by the same
quantification); equality across differing distributions never raises
and is false in both directions. -/
theorem C1_incompatible_distributions (b : DistroBase) (o : Operand) (d : String)
    (hid : o.distroId = .ok d) (hne : b.distribution ≠ d) :
    (∃ p q r : String,
      b.lt o = .error (.valueError (p ++ b.distribution ++ q ++ d ++ r)) ∧
      b.le o = .error (.valueError (p ++ b.distribution ++ q ++ d ++ r)) ∧
      b.gt o = .error (.valueError (p ++ b.distribution ++ q ++ d ++ r)) ∧
      b.ge o = .error (.valueError (p ++ b.distribution ++ q ++ d ++ r))) ∧
    (∀ b2 : DistroBase, o = .distroBase b2 →
      b.eq (.distroBase b2) = .ok (.bool false) ∧
      b2.eq (.distroBase b) = .ok (.bool false)) ∧
    (∀ n v : String, o = .baseName n v → b.eq (.baseName n v) = .ok (.bool false)) ∧
    (∀ x y : String, ∀ rest : List String, o = .pair (x :: y :: rest) →
      b.eq (.pair (x :: y :: rest)) = .ok (.bool false)) := by
  have hens : b._ensure_bases_comparable o = .error (.valueError
      ("Different distributions (" ++ b.distribution ++ " and " ++ d ++
        ") do not have comparable versions.")) := by
    rw [DistroBase._ensure_bases_comparable, hid]
    simp [hne]
  refine ⟨⟨"Different distributions (", " and ",
      ") do not have comparable versions.", ?_, ?_, ?_, ?_⟩, ?_, ?_, ?_⟩
  · rw [DistroBase.lt, hens]
  · rw [DistroBase.le, hens]
  · rw [DistroBase.gt, hens]
  · rw [DistroBase.ge, hens]
  · rintro b2 rfl
    have hd2 : b2.distribution = d := by
      simpa [Operand.distroId] using hid
    have hne' : b.distribution ≠ b2.distribution := hd2 ▸ hne
    have hne'' : b2.distribution ≠ b.distribution := fun h => hne' h.symm
    constructor
    · simp [DistroBase.eq, hne']
    · simp [DistroBase.eq, hne'']
  · rintro n v rfl
    have hn : n = d := by
      simpa [Operand.distroId] using hid
    have hne' : b.distribution ≠ n := hn ▸ hne
    simp [DistroBase.eq, hne']
  · rintro x y rest rfl
    have hx : x = d := by
      simpa [Operand.distroId] using hid
    have hne' : ¬ b.distribution = x := hx ▸ hne
    simp [DistroBase.eq, hne']

/-- C1 witness: ubuntu and debian bases are unequal in both directions
without raising. -/
theorem C1_incompatible_distributions_witness :
    (DistroBase.mk "ubuntu" "24.04").eq (.distroBase ⟨"debian", "12"⟩) =
      .ok (.bool false) ∧
    (DistroBase.mk "debian" "12").eq (.distroBase ⟨"ubuntu", "24.04"⟩) =
      .ok (.bool false) :=
  (C1_incompatible_distributions ⟨"ubuntu", "24.04"⟩ (.distroBase ⟨"debian", "12"⟩)
      "debian" rfl (by decide)).2.1 ⟨"debian", "12"⟩ rfl

/-- C3: with matching distribution identifiers, each ordering operator
extracts the other operand's version string according to its shape
(DistroBase → series, BaseName → version, pair → second element),
converts both series to version tuples, and returns exactly the boolean
of the requested relation on the tuple comparison. -/
theorem C3_ordering_by_version_tuples (b : DistroBase) (o : Operand) (v : String)
    (c : Ordering)
    (hid : o.distroId = .ok b.distribution)
    (hv : _get_version o = .ok v)
    (hc : tupleCompare (_get_version_tuple b.series) (_get_version_tuple v) = .ok c) :
    b.lt o = .ok (c == .lt) ∧
    b.le o = .ok (c == .lt || c == .eq) ∧
    b.gt o = .ok (c == .gt) ∧
    b.ge o = .ok (c == .gt || c == .eq) ∧
    (∀ b2 : DistroBase, o = .distroBase b2 → v = b2.series) ∧
    (∀ n w : String, o = .baseName n w → v = w) ∧
    (∀ x y : String, ∀ rest : List String, o = .pair (x :: y :: rest) → v = y) := by
  obtain ⟨h1, h2, h3, h4⟩ := ordering_ops_eval b o v c hid hv hc
  refine ⟨h1, h2, h3, h4, ?_, ?_, ?_⟩
  · rintro b2 rfl
    simpa [_get_version] using hv.symm
  · rintro n w rfl
    simpa [_get_version] using hv.symm
  · rintro x y rest rfl
    simpa [_get_version] using hv.symm

/-- C3 witness: ubuntu 18.04 against ubuntu 24.04 via the strict
relation. -/
theorem C3_ordering_by_version_tuples_witness :
    (DistroBase.mk "ubuntu" "18.04").lt (.distroBase ⟨"ubuntu", "24.04"⟩) =
      .ok (Ordering.lt == Ordering.lt) :=
  (C3_ordering_by_version_tuples ⟨"ubuntu", "18.04"⟩ (.distroBase ⟨"ubuntu", "24.04"⟩)
      "24.04" Ordering.lt rfl rfl (by decide)).1

/-- Lexicographically smaller all-numeric tuples compare as `lt`. -/
theorem tupleCompare_num_lt {la lb : List Int} (h : List.Lex (· < ·) la lb) :
    tupleCompare (la.map VersionPart.num) (lb.map VersionPart.num) = .ok .lt := by
  induction h with
  | nil => simp [tupleCompare]
  | cons _ ih => simp [tupleCompare, partEq, ih]
  | rel hab =>
    have hne : ¬ _ = _ := ne_of_lt hab
    simp [tupleCompare, partEq, partCompare, hab, hne]

/-- Lexicographically smaller all-numeric tuples compare as `gt` when the
operands are swapped. -/
theorem tupleCompare_num_gt {la lb : List Int} (h : List.Lex (· < ·) la lb) :
    tupleCompare (lb.map VersionPart.num) (la.map VersionPart.num) = .ok .gt := by
  induction h with
  | nil => simp [tupleCompare]
  | cons _ ih => simp [tupleCompare, partEq, ih]
  | rel hab =>
    have hlt : ¬ _ < _ := not_lt_of_gt hab
    have hne : ¬ _ = _ := ne_of_gt hab
    simp [tupleCompare, partEq, partCompare, hlt, hne, (ne_of_lt hab).symm]

/-- Lexicographically related integer lists are distinct. -/
theorem lex_lt_ne {la lb : List Int} (h : List.Lex (· < ·) la lb) : la ≠ lb := by
  induction h with
  | nil => simp
  | cons _ ih =>
    intro hq
    injection hq with _ h2
    exact ih h2
  | rel hab =>
    intro hq
    injection hq with h1 _
    exact ne_of_lt hab h1

/-- C8: same-distribution bases whose series coerce to all-numeric tuples
in lexicographic integer order satisfy all four ordering relations the
right way round and are unequal; concretely, ubuntu 4.10 is strictly
smaller than every known ubuntu series from 6.06 through 24.10, so the
integer coercion beats naive lexical string ordering. -/
theorem C8_numeric_series_ordering (b1 b2 : DistroBase) (la lb : List Int)
    (hdistro : b1.distribution = b2.distribution)
    (ha : _get_version_tuple b1.series = la.map VersionPart.num)
    (hb : _get_version_tuple b2.series = lb.map VersionPart.num)
    (hlt : List.Lex (· < ·) la lb) :
    b1.lt (.distroBase b2) = .ok true ∧
    b1.le (.distroBase b2) = .ok true ∧
    b2.gt (.distroBase b1) = .ok true ∧
    b2.ge (.distroBase b1) = .ok true ∧
    b1.eq (.distroBase b2) = .ok (.bool false) ∧
    (∀ s ∈ (["6.06", "6.10", "7.04", "7.10", "8.04", "8.10", "9.04", "9.10",
        "10.04", "10.10", "11.04", "11.10", "12.04", "12.10", "13.04", "13.10",
        "14.04", "14.10", "15.04", "15.10", "16.04", "16.10", "17.04", "17.10",
        "18.04", "18.10", "19.04", "19.10", "20.04", "20.10", "21.04", "21.10",
        "22.04", "22.10", "23.04", "23.10", "24.04", "24.10"] : List String),
      (DistroBase.mk "ubuntu" "4.10").lt (.distroBase ⟨"ubuntu", s⟩) = .ok true) := by
  have hcmp : tupleCompare (_get_version_tuple b1.series)
      (_get_version_tuple b2.series) = .ok .lt := by
    rw [ha, hb]
    exact tupleCompare_num_lt hlt
  have hcmp' : tupleCompare (_get_version_tuple b2.series)
      (_get_version_tuple b1.series) = .ok .gt := by
    rw [ha, hb]
    exact tupleCompare_num_gt hlt
  have h12 := ordering_ops_eval b1 (.distroBase b2) b2.series Ordering.lt
    (by simp [Operand.distroId, hdistro]) rfl hcmp
  have h21 := ordering_ops_eval b2 (.distroBase b1) b1.series Ordering.gt
    (by simp [Operand.distroId, hdistro]) rfl hcmp'
  have hser : b1.series ≠ b2.series := by
    intro hs
    have hmaps : la.map VersionPart.num = lb.map VersionPart.num := by
      rw [← ha, ← hb, hs]
    have hinj : Function.Injective VersionPart.num := by
      intro x y hxy
      exact VersionPart.num.inj hxy
    exact lex_lt_ne hlt (List.map_injective_iff.mpr hinj hmaps)
  refine ⟨h12.1, h12.2.1, h21.2.2.1, h21.2.2.2, ?_, by decide⟩
  simp [DistroBase.eq, hser]

/-- C8 witness: ubuntu 18.04 below ubuntu 24.04, all four relations. -/
theorem C8_numeric_series_ordering_witness :
    (DistroBase.mk "ubuntu" "18.04").lt (.distroBase ⟨"ubuntu", "24.04"⟩) = .ok true :=
  (C8_numeric_series_ordering ⟨"ubuntu", "18.04"⟩ ⟨"ubuntu", "24.04"⟩ [18, 4] [24, 4]
      rfl (by decide) (by decide) (List.Lex.rel (by decide))).1

/-- C6 counterexample: the module has failure modes beyond the
malformed-base and incompatible-distributions ValueErrors — ordering two
same-distribution bases whose series coerce to an integer and a string
raises TypeError instead of returning a boolean, and equality against an
empty tuple raises IndexError instead of returning a boolean. -/
theorem C6_counterexample :
    (DistroBase.mk "debian" "10").le (.distroBase ⟨"debian", "buster"⟩) =
      .error .typeError ∧
    (DistroBase.mk "debian" "10").eq (.pair []) = .error .indexError :=
  ⟨rfl, rfl⟩

/-- C6 amended: besides the two documented ValueErrors, ordering can hit
Python's TypeError (integer token against string token at the deciding
position) and tuple operands shorter than two elements raise IndexError;
with those cases excluded, every ordering comparison of same-distribution
bases returns a boolean, and equality against any tuple holding at least
two elements returns a boolean. -/
theorem C6_failure_modes (b : DistroBase) (o : Operand) (v : String) (c : Ordering)
    (hid : o.distroId = .ok b.distribution)
    (hv : _get_version o = .ok v)
    (hc : tupleCompare (_get_version_tuple b.series) (_get_version_tuple v) = .ok c) :
    (∃ r1, b.lt o = .ok r1) ∧ (∃ r2, b.le o = .ok r2) ∧
    (∃ r3, b.gt o = .ok r3) ∧ (∃ r4, b.ge o = .ok r4) ∧
    (∀ t : List String, 2 ≤ t.length → ∃ bv, b.eq (.pair t) = .ok (.bool bv)) := by
  obtain ⟨h1, h2, h3, h4⟩ := ordering_ops_eval b o v c hid hv hc
  refine ⟨⟨_, h1⟩, ⟨_, h2⟩, ⟨_, h3⟩, ⟨_, h4⟩, ?_⟩
  intro t ht
  match t, ht with
  | x :: y :: rest, _ =>
    cases hx : (b.distribution == x) with
    | true => exact ⟨(b.series == y), by simp [DistroBase.eq, hx]⟩
    | false => exact ⟨false, by simp [DistroBase.eq, hx]⟩

/-- C6 amended witness: a comparable pair of ubuntu bases. -/
theorem C6_failure_modes_witness :
    ∃ r1, (DistroBase.mk "ubuntu" "20.04").lt (.distroBase ⟨"ubuntu", "24.04"⟩) =
      .ok r1 :=
  (C6_failure_modes ⟨"ubuntu", "20.04"⟩ (.distroBase ⟨"ubuntu", "24.04"⟩) "24.04"
      Ordering.lt rfl rfl (by decide)).1
